import Mathlib

/-!
Verification development for `long-running-pubsub` (`src/index.js`).

The file shallowly embeds the `Client` class of `src/index.js`: the message
codec used on the publish and pull paths, the long-running-job registry
(`this.longRunningJobTimers`), the interval timers started by `setInterval`,
and the traces of transport calls and log-sink invocations each method
performs.  Byte strings are modelled as `List Nat` (each element a byte or a
character code), JS numbers as rationals, and JS objects keyed by strings as
association lists with unique keys.  Authentication
(`addAuthentication`) and the HTTP layer are external collaborators: each
wire call appears as one trace event, and the model covers the executions in
which the awaited calls resolve (a rejected awaited call would propagate to
the caller and perform nothing further, which no claim below depends on).
-/

namespace LongRunningPubsub

/-- Byte strings and character-code strings are lists of naturals. -/
abbrev Bytes := List Nat

/-- Character codes of the standard base64 alphabet `A-Z a-z 0-9 + /`, the
alphabet used by Node `Buffer.toString('base64')` and
`Buffer.from(_, 'base64')`, which `publish` (line 152) and
`pullLongRunningJob` (line 122) rely on. -/
def b64chars : Bytes :=
  [65, 66, 67, 68, 69, 70, 71, 72, 73, 74, 75, 76, 77, 78, 79, 80,
   81, 82, 83, 84, 85, 86, 87, 88, 89, 90,
   97, 98, 99, 100, 101, 102, 103, 104, 105, 106, 107, 108, 109, 110, 111, 112,
   113, 114, 115, 116, 117, 118, 119, 120, 121, 122,
   48, 49, 50, 51, 52, 53, 54, 55, 56, 57,
   43, 47]

/-- Character code of the base64 digit for a sextet value below 64. -/
def charOfSextet (s : Nat) : Nat := b64chars.getD s 65

/-- Sextet value of a base64 digit character code. -/
def sextetOfChar (c : Nat) : Nat := b64chars.indexOf c

/-- Base64 encoding of a byte list, as produced by Node
`Buffer.from(bytes).toString('base64')`: three bytes become four digits, a
final group of one or two bytes is padded with `=` (code 61). -/
def b64encode : Bytes → Bytes
  | [] => []
  | [b0] =>
      [charOfSextet (b0 / 4), charOfSextet (b0 % 4 * 16), 61, 61]
  | [b0, b1] =>
      [charOfSextet (b0 / 4), charOfSextet (b0 % 4 * 16 + b1 / 16),
       charOfSextet (b1 % 16 * 4), 61]
  | b0 :: b1 :: b2 :: rest =>
      charOfSextet (b0 / 4) ::
      charOfSextet (b0 % 4 * 16 + b1 / 16) ::
      charOfSextet (b1 % 16 * 4 + b2 / 64) ::
      charOfSextet (b2 % 64) ::
      b64encode rest

/-- Base64 decoding of a character-code list, as performed by Node
`Buffer.from(text, 'base64')` on well-formed input: each group of four
digits yields three bytes, with `=` padding (code 61) marking a final group
of one or two bytes. -/
def b64decode : Bytes → Bytes
  | c0 :: c1 :: c2 :: c3 :: rest =>
      if c2 = 61 then
        [sextetOfChar c0 * 4 + sextetOfChar c1 / 16]
      else if c3 = 61 then
        [sextetOfChar c0 * 4 + sextetOfChar c1 / 16,
         sextetOfChar c1 % 16 * 16 + sextetOfChar c2 / 4]
      else
        (sextetOfChar c0 * 4 + sextetOfChar c1 / 16) ::
        (sextetOfChar c1 % 16 * 16 + sextetOfChar c2 / 4) ::
        (sextetOfChar c2 % 4 * 64 + sextetOfChar c3) ::
        b64decode rest
  | _ => []

/-- Outbound codec of `publish` (src/index.js line 152):
`Buffer.from(m.data).toString('base64')`. -/
def encodeData (data : Bytes) : Bytes := b64encode data

/-- Inbound codec of `pullLongRunningJob` (src/index.js line 122):
`Buffer.from(data, 'base64').toString('ascii')`.  Node `'ascii'` decoding
clears the high bit of every byte (`b & 0x7F`) before treating it as a
character code. -/
def decodeData (wire : Bytes) : Bytes :=
  (b64decode wire).map (fun b => b % 128)

theorem sextetOfChar_charOfSextet : ∀ s, s < 64 → sextetOfChar (charOfSextet s) = s := by
  decide

theorem charOfSextet_ne_pad : ∀ s, s < 64 → charOfSextet s ≠ 61 := by
  decide

theorem b64_roundtrip : ∀ bs : Bytes, (∀ b ∈ bs, b < 256) → b64decode (b64encode bs) = bs
  | [], _ => rfl
  | [b0], h => by
      have hb0 : b0 < 256 := h b0 (by simp)
      have h0 : b0 / 4 < 64 := by omega
      have h1 : b0 % 4 * 16 < 64 := by omega
      simp only [b64encode, b64decode, sextetOfChar_charOfSextet _ h0,
        sextetOfChar_charOfSextet _ h1, if_true]
      simp only [List.cons.injEq, and_true]
      omega
  | [b0, b1], h => by
      have hb0 : b0 < 256 := h b0 (by simp)
      have hb1 : b1 < 256 := h b1 (by simp)
      have h0 : b0 / 4 < 64 := by omega
      have h1 : b0 % 4 * 16 + b1 / 16 < 64 := by omega
      have h2 : b1 % 16 * 4 < 64 := by omega
      simp only [b64encode, b64decode, sextetOfChar_charOfSextet _ h0,
        sextetOfChar_charOfSextet _ h1, sextetOfChar_charOfSextet _ h2]
      rw [if_neg (charOfSextet_ne_pad _ h2)]
      simp only [if_true]
      simp only [List.cons.injEq, and_true]
      omega
  | b0 :: b1 :: b2 :: rest, h => by
      have hb0 : b0 < 256 := h b0 (by simp)
      have hb1 : b1 < 256 := h b1 (by simp)
      have hb2 : b2 < 256 := h b2 (by simp)
      have h0 : b0 / 4 < 64 := by omega
      have h1 : b0 % 4 * 16 + b1 / 16 < 64 := by omega
      have h2 : b1 % 16 * 4 + b2 / 64 < 64 := by omega
      have h3 : b2 % 64 < 64 := by omega
      have ih : b64decode (b64encode rest) = rest :=
        b64_roundtrip rest (fun b hb => h b (by simp [hb]))
      simp only [b64encode, b64decode, sextetOfChar_charOfSextet _ h0,
        sextetOfChar_charOfSextet _ h1, sextetOfChar_charOfSextet _ h2,
        sextetOfChar_charOfSextet _ h3]
      rw [if_neg (charOfSextet_ne_pad _ h2), if_neg (charOfSextet_ne_pad _ h3), ih]
      simp only [List.cons.injEq, and_true]
      omega

theorem map_mod128_of_ascii : ∀ Q : Bytes, (∀ b ∈ Q, b < 128) →
    Q.map (fun b => b % 128) = Q := by
  intro Q hQ
  induction Q with
  | nil => rfl
  | cons a t ih =>
      have ha : a < 128 := hQ a (by simp)
      simp only [List.map_cons, Nat.mod_eq_of_lt ha, List.cons.injEq, true_and]
      exact ih (fun b hb => hQ b (by simp [hb]))

/-- C2 counterexample: the byte 200 does not survive the publish-then-pull
codec composition.  `publish` base64-encodes the payload (line 152) and
`pullLongRunningJob` decodes with `'ascii'` (line 122), which clears the
high bit of every byte, so `[200]` comes back as `[72]`, not `[200]`. -/
theorem c2_roundtrip_counterexample :
    decodeData (encodeData [200]) = [72] ∧ decodeData (encodeData [200]) ≠ [200] := by
  decide

/-- C2 (amended): the pull-path decoding of the publish-path encoding
returns the payload unchanged for every payload all of whose bytes are
below 128 (7-bit ASCII); in particular the empty payload round-trips to the
empty string.  A byte of 128 or more instead comes back with its high bit
cleared, because line 122 decodes with the Node `'ascii'` encoding. -/
theorem c2_roundtrip_ascii (P : Bytes) (h : ∀ b ∈ P, b < 128) :
    decodeData (encodeData P) = P := by
  unfold decodeData encodeData
  rw [b64_roundtrip P (fun b hb => Nat.lt_trans (h b hb) (by omega))]
  exact map_mod128_of_ascii P h

/-- C2 witness: the ASCII payload "hello" round-trips through the codec. -/
theorem c2_roundtrip_ascii_witness :
    (∀ b ∈ ([104, 101, 108, 108, 111] : Bytes), b < 128) ∧
      decodeData (encodeData [104, 101, 108, 108, 111]) = [104, 101, 108, 108, 111] :=
  ⟨by decide, c2_roundtrip_ascii [104, 101, 108, 108, 111] (by decide)⟩

/-- Wire-level Pub/Sub message carried inside a pull response element:
`payload.message` with its `data` field (a base64 text on the wire) and
`attributes`. -/
structure PubsubMessage where
  data : Bytes
  attributes : List (String × String)
  deriving DecidableEq, Repr

/-- One element of `results.receivedMessages` in a pull response:
`{ ackId, message }` (src/index.js lines 110-124 access `payload.ackId` and
`payload.message.data`). -/
structure ReceivedMessage where
  ackId : String
  message : PubsubMessage
  deriving DecidableEq, Repr

/-- Body of a pull response as `pullLongRunningJob` inspects it: the
`receivedMessages` field may be absent (`none`, falsy in JS) or a list.
The whole response body may itself be absent, modelled by wrapping in
`Option` at the use site. -/
structure PullResponse where
  receivedMessages : Option (List ReceivedMessage)
  deriving DecidableEq, Repr

/-- One outgoing message of a publish batch: `{ data, attributes }`
(src/index.js lines 151-154 read and overwrite `m.data`). -/
structure PubMessage where
  data : Bytes
  attributes : List (String × String)
  deriving DecidableEq, Repr

/-- The closure captured by the `setInterval` callback of
`pullLongRunningJob` (src/index.js lines 115-118): each tick it logs and
calls `this.modifyAckDeadline(subscription, [payload.ackId], extendBy)`. -/
structure IntervalTask where
  subscription : String
  ackId : String
  extendBy : ℚ
  period : ℚ
  deriving DecidableEq, Repr

/-- Wire body built by `modifyAckDeadline` (src/index.js lines 75-77):
`{ ackIds, ackDeadlineSeconds: ackDeadline / 1000 }`.  The division is JS
number division; we model the JS number by a rational, which is exact for
the concrete inputs the theorems below evaluate (quotients such as 1.5 and
whole numbers are exactly representable IEEE doubles, and IEEE division
yields them exactly). -/
structure ModifyAckDeadlineBody where
  ackIds : List String
  ackDeadlineSeconds : ℚ
  deriving DecidableEq, Repr

def mkModifyAckDeadlineBody (ackIds : List String) (ackDeadline : ℚ) : ModifyAckDeadlineBody :=
  { ackIds := ackIds, ackDeadlineSeconds := ackDeadline / 1000 }

/-- Arguments of the log-sink (`this.log`) invocations of `Client`, one
constructor per template string in src/index.js (lines 62, 68, 85, 105,
113, 116, 130); the constructor arguments are the interpolated values. -/
inductive LogMsg where
  | pullLog (sub : String)
  | modifyLog (sub : String) (ackIds : List String) (ackDeadlineMs : ℚ)
  | ackLog (sub : String) (ackIds : List String)
  | receivedResults (sub : String)
  | jobStarting (sub ackId : String)
  | jobLoop (sub ackId : String)
  | jobStopping (sub ackId : String)
  deriving DecidableEq, Repr

/-- Observable steps a `Client` method performs, in program order: log-sink
invocations, wire calls (the `request(req)` POSTs, identified by endpoint
and the request-specific body fields), and timer management.  The
`callModifyAckDeadline` event records the method arguments in
milliseconds; the wire body it posts is `mkModifyAckDeadlineBody` of those
arguments. -/
inductive Event where
  | log (m : LogMsg)
  | callPull (sub : String) (returnImmediately : Bool) (maxMessages : Nat)
  | callModifyAckDeadline (sub : String) (ackIds : List String) (ackDeadlineMs : ℚ)
  | callAcknowledge (sub : String) (ackIds : List String)
  | callPublish (topic : String) (messages : List PubMessage)
  | setIntervalEv (timerId : Nat)
  | clearIntervalEv (timerId : Nat)
  deriving DecidableEq, Repr

/-- Mutable state of a `Client` instance relevant to the long-running-job
claims: the registry object `this.longRunningJobTimers` (a JS object keyed
by ackId whose values are interval handles, modelled by numeric ids), the
set of interval timers that have been started and not cleared, and a
counter supplying fresh interval ids.  `BASE_URL`, `project` and `log` are
immutable configuration and are passed where needed instead. -/
structure ClientState where
  longRunningJobTimers : List (String × Nat)
  liveIntervals : List (Nat × IntervalTask)
  nextTimerId : Nat
  deriving DecidableEq, Repr

/-- Lookup in a JS object modelled as an association list
(`obj[key]`, yielding `undefined` as `none`). -/
def objGet (m : List (String × Nat)) (k : String) : Option Nat :=
  match m with
  | [] => none
  | (k2, v) :: rest => if k2 = k then some v else objGet rest k

/-- Property assignment on a JS object (`obj[key] = v`): replaces the value
under an existing key, otherwise adds the key.  A JS object holds at most
one value per key, which this preserves. -/
def objSet (m : List (String × Nat)) (k : String) (v : Nat) : List (String × Nat) :=
  match m with
  | [] => [(k, v)]
  | (k2, v2) :: rest => if k2 = k then (k, v) :: rest else (k2, v2) :: objSet rest k v

/-- Property removal on a JS object (`delete obj[key]`). -/
def objDelete (m : List (String × Nat)) (k : String) : List (String × Nat) :=
  m.filter (fun e => !(e.1 == k))

/-- Number of registry entries stored under one key. -/
def countKey (m : List (String × Nat)) (k : String) : Nat :=
  m.countP (fun e => e.1 == k)

/-- Trace of one call to `Client.modifyAckDeadline` (src/index.js lines
67-82): the debug log line, then the wire POST.  `addAuthentication` only
fills the `Authorization` header and is external I/O, not modelled. -/
def modifyAckDeadlineEvents (subscription : String) (ackIds : List String)
    (ackDeadline : ℚ) : List Event :=
  [.log (.modifyLog subscription ackIds ackDeadline),
   .callModifyAckDeadline subscription ackIds ackDeadline]

/-- Trace of one call to `Client.acknowledge` (src/index.js lines 84-97):
the debug log line, then the wire POST. -/
def acknowledgeEvents (subscription : String) (ackIds : List String) : List Event :=
  [.log (.ackLog subscription ackIds), .callAcknowledge subscription ackIds]

/-- Trace of one call to `Client.pull` (src/index.js lines 53-65): the
debug log line, then the wire POST with the `returnImmediately` and
`maxMessages` body fields. -/
def pullEvents (subscription : String) (returnImmediately : Bool)
    (maxMessages : Nat) : List Event :=
  [.log (.pullLog subscription), .callPull subscription returnImmediately maxMessages]

/-- Result of a run of `pullLongRunningJob`: the post-call client state,
the events performed in order, and the resolved value (`none` models both
`null` and `undefined`, the two absent-value returns of JS; the code
returns `undefined` via a bare `return`). -/
structure PullLRJResult where
  state : ClientState
  events : List Event
  ret : Option ReceivedMessage
  deriving DecidableEq, Repr

/-- Client.pullLongRunningJob (src/index.js lines 102-126), with the pull
response supplied as an oracle for the resolved `this.pull` promise.  The
`.then` callback logs the results, returns early when the response or its
`receivedMessages` is falsy or the list has no first element, and
otherwise: stores a fresh interval under `payload.ackId` in
`this.longRunningJobTimers` (replacing any previous value of that key
without clearing its interval), awaits one `modifyAckDeadline`, decodes
`payload.message.data` in place, and resolves with the payload.  Only
`results[0]` is ever read.  The model covers runs in which the awaited
wire calls resolve; a rejection would propagate to the caller. -/
def pullLongRunningJob (s : ClientState) (subscription : String)
    (extendBy withPeriod : ℚ) (response : Option PullResponse) : PullLRJResult :=
  match response with
  | none =>
      { state := s,
        events := pullEvents subscription true 1 ++ [.log (.receivedResults subscription)],
        ret := none }
  | some results =>
      match results.receivedMessages with
      | none =>
          { state := s,
            events := pullEvents subscription true 1 ++ [.log (.receivedResults subscription)],
            ret := none }
      | some msgs =>
          match msgs with
          | [] =>
              { state := s,
                events := pullEvents subscription true 1 ++ [.log (.receivedResults subscription)],
                ret := none }
          | payload :: _ =>
              let tid := s.nextTimerId
              let task : IntervalTask :=
                { subscription := subscription, ackId := payload.ackId,
                  extendBy := extendBy, period := withPeriod }
              { state :=
                  { longRunningJobTimers := objSet s.longRunningJobTimers payload.ackId tid,
                    liveIntervals := (tid, task) :: s.liveIntervals,
                    nextTimerId := tid + 1 },
                events :=
                  pullEvents subscription true 1 ++
                  [.log (.receivedResults subscription),
                   .log (.jobStarting subscription payload.ackId),
                   .setIntervalEv tid] ++
                  modifyAckDeadlineEvents subscription [payload.ackId] extendBy,
                ret := some { payload with
                  message := { payload.message with
                    data := decodeData payload.message.data } } }

/-- Result of a run of `acknowledgeLongRunningJob` or of one interval tick:
post-call state and events in order. -/
structure StepResult where
  state : ClientState
  events : List Event
  deriving DecidableEq, Repr

/-- Client.acknowledgeLongRunningJob (src/index.js lines 128-137): when
`this.longRunningJobTimers[ackId]` is set (interval handles are objects,
always truthy), it logs, clears that interval and deletes the registry
key; in every case it then calls `this.acknowledge(subscription, [ackId])`.
The model covers runs in which the awaited acknowledge resolves. -/
def acknowledgeLongRunningJob (s : ClientState) (subscription ackId : String) : StepResult :=
  match objGet s.longRunningJobTimers ackId with
  | some tid =>
      { state :=
          { longRunningJobTimers := objDelete s.longRunningJobTimers ackId,
            liveIntervals := s.liveIntervals.filter (fun e => !(e.1 == tid)),
            nextTimerId := s.nextTimerId },
        events :=
          [.log (.jobStopping subscription ackId), .clearIntervalEv tid] ++
          acknowledgeEvents subscription [ackId] }
  | none =>
      { state := s, events := acknowledgeEvents subscription [ackId] }

/-- Outcome of the wire call fired by one renewal tick: did the
`modifyAckDeadline` request succeed or fail with a network error. -/
inductive TickOutcome where
  | success
  | failure
  deriving DecidableEq, Repr

/-- One firing of the `setInterval` callback registered by
`pullLongRunningJob` (src/index.js lines 115-118): it logs the loop line
and invokes `this.modifyAckDeadline`, discarding the returned promise.
Nothing in the callback inspects the outcome of that wire call: there is
no try/catch, no `.catch`, no `await`, so a rejection is an unhandled
promise rejection that reaches neither the log sink nor any caller, and
the interval itself keeps firing. -/
def fireTick (s : ClientState) (t : IntervalTask) (outcome : TickOutcome) : StepResult :=
  { state := s,
    events :=
      .log (.jobLoop t.subscription t.ackId) ::
      modifyAckDeadlineEvents t.subscription [t.ackId] t.extendBy }

/-- A renewal tick for handle `h` can fire from state `s` exactly when some
started-and-not-cleared interval targets `h`. -/
def tickableFor (s : ClientState) (h : String) : Bool :=
  s.liveIntervals.any (fun e => e.2.ackId == h)

/-- Result of a run of `publish`: the events performed, and the contents of
the caller-supplied `messages` array after the call.  `messages.map` at
src/index.js lines 151-154 assigns `m.data` on each original element
before returning it, so the mapped array the request body is built from
and the caller array hold the same mutated objects. -/
structure PublishResult where
  events : List Event
  callerMessages : List PubMessage
  deriving DecidableEq, Repr

/-- Client.publish (src/index.js lines 145-159): re-encodes each outgoing
`m.data` to base64 in place, posts the batch, and leaves the caller's
message objects holding the encoded payloads. -/
def publish (topic : String) (messages : List PubMessage) : PublishResult :=
  let encoded := messages.map (fun m => { m with data := encodeData m.data })
  { events := [.callPublish topic encoded], callerMessages := encoded }

/-- Recognizes `setInterval` events in a trace. -/
def isSetIntervalEvent : Event → Bool
  | .setIntervalEv _ => true
  | _ => false

/-- Recognizes `clearInterval` events in a trace. -/
def isClearIntervalEvent : Event → Bool
  | .clearIntervalEv _ => true
  | _ => false

/-- Recognizes `modifyAckDeadline` wire calls in a trace. -/
def isModifyCallEvent : Event → Bool
  | .callModifyAckDeadline _ _ _ => true
  | _ => false

/-- Checks that a pull wire call uses `returnImmediately = true` and
`maxMessages = 1`; holds vacuously of every other event. -/
def pullCallFlagsOk : Event → Bool
  | .callPull _ ri mm => ri && (mm == 1)
  | _ => true

/-- First received message of a pull response, as the two early-return
guards of `pullLongRunningJob` (src/index.js lines 107-110) select it:
`none` when the body, its `receivedMessages`, or the first element is
absent. -/
def firstMessageOf : Option PullResponse → Option ReceivedMessage
  | none => none
  | some r =>
      match r.receivedMessages with
      | none => none
      | some msgs => msgs.head?

/-- A freshly constructed client: empty registry, no timers. -/
def demoState : ClientState :=
  { longRunningJobTimers := [], liveIntervals := [], nextTimerId := 0 }

/-- A delivered message with ackId `A1` whose wire payload is the base64
text `aGVsbG8=` (the character codes below), the encoding of `hello`. -/
def demoMessage : ReceivedMessage :=
  { ackId := "A1",
    message := { data := [97, 71, 86, 115, 98, 71, 56, 61], attributes := [] } }

/-- A pull response delivering exactly the message `demoMessage`. -/
def demoResponse : Option PullResponse :=
  some { receivedMessages := some [demoMessage] }

/-- A client with one long-running job registered: handle `A1` tracked by
interval timer 0, which is live. -/
def regState : ClientState :=
  { longRunningJobTimers := [("A1", 0)],
    liveIntervals :=
      [(0, { subscription := "jobs", ackId := "A1", extendBy := 15000, period := 10000 })],
    nextTimerId := 1 }

theorem countKey_objSet (m : List (String × Nat)) (k : String) (v : Nat)
    (h : countKey m k ≤ 1) : countKey (objSet m k v) k = 1 := by
  induction m with
  | nil => simp [objSet, countKey]
  | cons e rest ih =>
      obtain ⟨k2, v2⟩ := e
      by_cases hk : k2 = k
      · subst hk
        simp only [countKey, objSet, if_pos rfl, List.countP_cons, beq_self_eq_true,
          if_true] at h ⊢
        simp at h ⊢
        exact h
      · have hbeq : (k2 == k) = false := by
          simp [hk]
        simp only [countKey, objSet, if_neg hk, List.countP_cons, hbeq] at h ⊢
        simp at h ⊢
        simp only [countKey] at ih
        exact ih h

/-- The interval task registered for handle A1 in `regState`. -/
def regTask : IntervalTask :=
  { subscription := "jobs", ackId := "A1", extendBy := 15000, period := 10000 }

/-- C1: demonstrates on a concrete run that `pullLongRunningJob` violates
the at-most-one-timer-per-handle registry invariant: pulling handle A1 a
second time overwrites `longRunningJobTimers["A1"]` with the fresh
interval id 1 (line 115) without rejecting and without clearing interval 0,
which stays live with no registry reference — the leak the spec Design
Notes describe.  The second run performs no `clearInterval` at all. -/
theorem c1_duplicate_registration_leaks_timer :
    (pullLongRunningJob (pullLongRunningJob demoState "jobs" 15000 10000 demoResponse).state
        "jobs" 15000 10000 demoResponse).state.longRunningJobTimers = [("A1", 1)]
    ∧ (0, { subscription := "jobs", ackId := "A1", extendBy := 15000, period := 10000 }) ∈
        (pullLongRunningJob (pullLongRunningJob demoState "jobs" 15000 10000 demoResponse).state
          "jobs" 15000 10000 demoResponse).state.liveIntervals
    ∧ (pullLongRunningJob (pullLongRunningJob demoState "jobs" 15000 10000 demoResponse).state
        "jobs" 15000 10000 demoResponse).events.all (fun e => !(isClearIntervalEvent e)) = true := by
  decide

/-- C3: when the pull resolves with at least one received message,
`pullLongRunningJob` resolves with that first message (payload decoded),
the registry then holds exactly one entry under the returned message
ackId, and the initial synchronous `modifyAckDeadline` invocation for that
handle (line 120, awaited before the resolution) is in the trace of the
call.  The hypothesis is the JS-object representation invariant of the
registry: an object holds at most one value per key. -/
theorem c3_register_and_extend_before_return (s : ClientState) (sub : String)
    (extendBy withPeriod : ℚ) (m : ReceivedMessage) (rest : List ReceivedMessage)
    (hwf : countKey s.longRunningJobTimers m.ackId ≤ 1) :
    (pullLongRunningJob s sub extendBy withPeriod
        (some { receivedMessages := some (m :: rest) })).ret
      = some { m with message := { m.message with data := decodeData m.message.data } }
    ∧ countKey (pullLongRunningJob s sub extendBy withPeriod
        (some { receivedMessages := some (m :: rest) })).state.longRunningJobTimers m.ackId = 1
    ∧ Event.callModifyAckDeadline sub [m.ackId] extendBy ∈
        (pullLongRunningJob s sub extendBy withPeriod
          (some { receivedMessages := some (m :: rest) })).events := by
  refine ⟨rfl, ?_, ?_⟩
  · show countKey (objSet s.longRunningJobTimers m.ackId s.nextTimerId) m.ackId = 1
    exact countKey_objSet _ _ _ hwf
  · simp [pullLongRunningJob, pullEvents, modifyAckDeadlineEvents]

/-- C3 witness: a concrete run of `pullLongRunningJob` from a fresh client
on a response carrying one message. -/
theorem c3_register_and_extend_before_return_witness :
    countKey demoState.longRunningJobTimers demoMessage.ackId ≤ 1
    ∧ ((pullLongRunningJob demoState "jobs" 15000 10000
          (some { receivedMessages := some (demoMessage :: []) })).ret
        = some { demoMessage with message :=
            { demoMessage.message with data := decodeData demoMessage.message.data } }
      ∧ countKey (pullLongRunningJob demoState "jobs" 15000 10000
          (some { receivedMessages := some (demoMessage :: []) })).state.longRunningJobTimers
            demoMessage.ackId = 1
      ∧ Event.callModifyAckDeadline "jobs" [demoMessage.ackId] 15000 ∈
          (pullLongRunningJob demoState "jobs" 15000 10000
            (some { receivedMessages := some (demoMessage :: []) })).events) :=
  ⟨by decide,
   c3_register_and_extend_before_return demoState "jobs" 15000 10000 demoMessage [] (by decide)⟩

/-- C4: when the pull resolves with no message (absent body, absent
`receivedMessages`, or an empty list), `pullLongRunningJob` resolves with
the absent value (no error is thrown: the run completes normally),
performs no registration and starts no timer (the state, registry
included, is unchanged), and its trace contains no `setInterval` and no
`modifyAckDeadline` call. -/
theorem c4_empty_pull_returns_none (s : ClientState) (sub : String)
    (extendBy withPeriod : ℚ) (response : Option PullResponse)
    (hempty : firstMessageOf response = none) :
    (pullLongRunningJob s sub extendBy withPeriod response).ret = none
    ∧ (pullLongRunningJob s sub extendBy withPeriod response).state = s
    ∧ (pullLongRunningJob s sub extendBy withPeriod response).events.all
        (fun e => !(isSetIntervalEvent e || isModifyCallEvent e)) = true := by
  rcases response with _ | ⟨_ | (_ | ⟨m, rest⟩)⟩
  · exact ⟨rfl, rfl, rfl⟩
  · exact ⟨rfl, rfl, rfl⟩
  · exact ⟨rfl, rfl, rfl⟩
  · simp [firstMessageOf] at hempty

/-- C4 witness: a pull against an empty subscription (a response with an
empty receivedMessages list). -/
theorem c4_empty_pull_returns_none_witness :
    firstMessageOf (some { receivedMessages := some [] }) = none
    ∧ ((pullLongRunningJob demoState "jobs" 15000 10000
          (some { receivedMessages := some [] })).ret = none
      ∧ (pullLongRunningJob demoState "jobs" 15000 10000
          (some { receivedMessages := some [] })).state = demoState
      ∧ (pullLongRunningJob demoState "jobs" 15000 10000
          (some { receivedMessages := some [] })).events.all
            (fun e => !(isSetIntervalEvent e || isModifyCallEvent e)) = true) :=
  ⟨by decide,
   c4_empty_pull_returns_none demoState "jobs" 15000 10000
     (some { receivedMessages := some [] }) (by decide)⟩

/-- C5 (amended): acknowledging a registered handle clears its interval
strictly before the acknowledge wire call is issued; and provided every
live renewal timer for the handle is the one the registry references
(which holds unless a duplicate registration has leaked a timer, see C1),
no renewal tick for the handle can fire once the acknowledge call starts. -/
theorem c5_deregister_before_acknowledge (s : ClientState) (sub h : String) (tid : Nat)
    (hreg : objGet s.longRunningJobTimers h = some tid)
    (hnoleak : ∀ e ∈ s.liveIntervals, e.2.ackId = h → e.1 = tid) :
    (∃ i j : Nat, i < j
      ∧ (acknowledgeLongRunningJob s sub h).events[i]? = some (Event.clearIntervalEv tid)
      ∧ (acknowledgeLongRunningJob s sub h).events[j]? = some (Event.callAcknowledge sub [h]))
    ∧ tickableFor (acknowledgeLongRunningJob s sub h).state h = false := by
  constructor
  · refine ⟨1, 3, by omega, ?_, ?_⟩
    · simp [acknowledgeLongRunningJob, hreg, acknowledgeEvents]
    · simp [acknowledgeLongRunningJob, hreg, acknowledgeEvents]
  · simp only [acknowledgeLongRunningJob, hreg, tickableFor]
    rw [List.any_eq_false]
    intro e he
    rw [List.mem_filter] at he
    obtain ⟨hmem, hid⟩ := he
    intro hbeq
    have hack : e.2.ackId = h := by simpa using hbeq
    have htid : e.1 = tid := hnoleak e hmem hack
    simp [htid] at hid

/-- C5 witness: acknowledging handle A1 on a client with exactly its one
registered live timer. -/
theorem c5_deregister_before_acknowledge_witness :
    objGet regState.longRunningJobTimers "A1" = some 0
    ∧ (∀ e ∈ regState.liveIntervals, e.2.ackId = "A1" → e.1 = 0)
    ∧ ((∃ i j : Nat, i < j
        ∧ (acknowledgeLongRunningJob regState "jobs" "A1").events[i]?
            = some (Event.clearIntervalEv 0)
        ∧ (acknowledgeLongRunningJob regState "jobs" "A1").events[j]?
            = some (Event.callAcknowledge "jobs" ["A1"]))
      ∧ tickableFor (acknowledgeLongRunningJob regState "jobs" "A1").state "A1" = false) :=
  ⟨by decide, by decide,
   c5_deregister_before_acknowledge regState "jobs" "A1" 0 (by decide) (by decide)⟩

/-- C5 counterexample: the claim as stated fails on the code.  After the
duplicate-registration leak (two pulls returning handle A1, see C1),
acknowledging A1 clears only the registry-referenced timer: the leaked
interval for A1 survives, so a renewal tick for A1 can still fire after
the acknowledge call has started. -/
theorem c5_counterexample_leaked_tick_after_acknowledge :
    tickableFor
      (acknowledgeLongRunningJob
        (pullLongRunningJob
          (pullLongRunningJob demoState "jobs" 15000 10000 demoResponse).state
          "jobs" 15000 10000 demoResponse).state
        "jobs" "A1").state "A1" = true := by
  decide

/-- C6: acknowledging a handle with no active registration (unknown, or
already deregistered by an earlier acknowledge) runs the falsy branch of
the guard at line 129: the state is unchanged, no `clearInterval` happens
(so nothing is double-cancelled and the deregistration step cannot
raise — it performs no operation at all), and the acknowledge wire call is
still issued. -/
theorem c6_acknowledge_idempotent_deregistration (s : ClientState) (sub h : String)
    (hnone : objGet s.longRunningJobTimers h = none) :
    (acknowledgeLongRunningJob s sub h).state = s
    ∧ (acknowledgeLongRunningJob s sub h).events.all
        (fun e => !(isClearIntervalEvent e)) = true
    ∧ Event.callAcknowledge sub [h] ∈ (acknowledgeLongRunningJob s sub h).events := by
  refine ⟨?_, ?_, ?_⟩ <;>
    simp [acknowledgeLongRunningJob, hnone, acknowledgeEvents, isClearIntervalEvent]

/-- C6 witness: the double-acknowledge scenario — the second acknowledge
of A1 runs on the state the first acknowledge produced, where A1 is no
longer registered. -/
theorem c6_acknowledge_idempotent_deregistration_witness :
    objGet (acknowledgeLongRunningJob regState "jobs" "A1").state.longRunningJobTimers "A1"
      = none
    ∧ ((acknowledgeLongRunningJob
          (acknowledgeLongRunningJob regState "jobs" "A1").state "jobs" "A1").state
        = (acknowledgeLongRunningJob regState "jobs" "A1").state
      ∧ (acknowledgeLongRunningJob
          (acknowledgeLongRunningJob regState "jobs" "A1").state "jobs" "A1").events.all
            (fun e => !(isClearIntervalEvent e)) = true
      ∧ Event.callAcknowledge "jobs" ["A1"] ∈
          (acknowledgeLongRunningJob
            (acknowledgeLongRunningJob regState "jobs" "A1").state "jobs" "A1").events) :=
  ⟨by decide,
   c6_acknowledge_idempotent_deregistration
     (acknowledgeLongRunningJob regState "jobs" "A1").state "jobs" "A1" (by decide)⟩

/-- C7 counterexample: the claim as stated fails on the code.  For the
deadline 1500 ms the wire field `ackDeadlineSeconds` is the JS number
1500 / 1000 = 1.5 (exactly representable as a double, modelled by the
rational 3/2): its reduced denominator is 2, so the field is not an
integer number of seconds under any truncation or rounding. -/
theorem c7_counterexample_fractional_seconds :
    (mkModifyAckDeadlineBody ["A1"] 1500).ackDeadlineSeconds = 3 / 2
    ∧ ((mkModifyAckDeadlineBody ["A1"] 1500).ackDeadlineSeconds).den = 2 := by
  constructor
  · norm_num [mkModifyAckDeadlineBody]
  · norm_num [mkModifyAckDeadlineBody, Rat.den]

/-- C7 (amended): `modifyAckDeadline` sends `ackDeadlineSeconds` equal to
the exact quotient d / 1000 of its millisecond argument — no truncation or
rounding to whole seconds is applied; when 1000 divides d the field is the
whole number d / 1000. -/
theorem c7_seconds_field_exact_quotient (ackIds : List String) (d : ℤ) :
    (mkModifyAckDeadlineBody ackIds (d : ℚ)).ackDeadlineSeconds = (d : ℚ) / 1000
    ∧ ((1000 : ℤ) ∣ d →
        (mkModifyAckDeadlineBody ackIds (d : ℚ)).ackDeadlineSeconds = ((d / 1000 : ℤ) : ℚ)) := by
  refine ⟨rfl, fun hdvd => ?_⟩
  obtain ⟨k, hk⟩ := hdvd
  subst hk
  rw [Int.mul_ediv_cancel_left _ (by norm_num)]
  show ((1000 * k : ℤ) : ℚ) / 1000 = (k : ℚ)
  push_cast
  ring

/-- C7 witness: the default 15000 ms deadline goes to the wire as the
whole number 15. -/
theorem c7_seconds_field_exact_quotient_witness :
    (1000 : ℤ) ∣ 15000
    ∧ (mkModifyAckDeadlineBody ["A1"] ((15000 : ℤ) : ℚ)).ackDeadlineSeconds
        = (((15000 : ℤ) / 1000 : ℤ) : ℚ) :=
  ⟨by norm_num, (c7_seconds_field_exact_quotient ["A1"] 15000).2 (by norm_num)⟩

/-- C8: `pullLongRunningJob` runs identically on a response with extra
messages and on that response truncated to its first message — no
registration, deadline extension or decoding touches any later message —
and every pull it issues carries `returnImmediately = true` and
`maxMessages = 1` (the only pull is issued with exactly those literals at
line 103). -/
theorem c8_first_message_only (s : ClientState) (sub : String) (extendBy withPeriod : ℚ)
    (m : ReceivedMessage) (rest : List ReceivedMessage) (response : Option PullResponse) :
    pullLongRunningJob s sub extendBy withPeriod (some { receivedMessages := some (m :: rest) })
      = pullLongRunningJob s sub extendBy withPeriod (some { receivedMessages := some [m] })
    ∧ Event.callPull sub true 1 ∈ (pullLongRunningJob s sub extendBy withPeriod response).events
    ∧ (pullLongRunningJob s sub extendBy withPeriod response).events.all pullCallFlagsOk
        = true := by
  refine ⟨rfl, ?_, ?_⟩
  · rcases response with _ | ⟨_ | (_ | ⟨m2, rest2⟩)⟩ <;>
      simp [pullLongRunningJob, pullEvents, modifyAckDeadlineEvents]
  · rcases response with _ | ⟨_ | (_ | ⟨m2, rest2⟩)⟩ <;> rfl

/-- C9 (amended): a renewal tick whose `modifyAckDeadline` wire call fails
behaves exactly like a successful one: the client state is untouched (the
registration stays, the interval stays live, so subsequent ticks still
fire on schedule) and the events — log-sink invocations included — are
identical, so nothing propagates to the caller of `pullLongRunningJob`;
but by the same token the failure is not reported through the injected
log sink (the discarded promise rejection is unobserved, contrary to the
claim — see the counterexample). -/
theorem c9_tick_failure_invisible (s : ClientState) (e : Nat × IntervalTask)
    (hlive : e ∈ s.liveIntervals) :
    (fireTick s e.2 .failure).state = s
    ∧ fireTick s e.2 .failure = fireTick s e.2 .success
    ∧ e ∈ (fireTick s e.2 .failure).state.liveIntervals
    ∧ tickableFor (fireTick s e.2 .failure).state e.2.ackId = tickableFor s e.2.ackId :=
  ⟨rfl, rfl, hlive, rfl⟩

/-- C9 witness: a failing tick of the registered timer of `regState`. -/
theorem c9_tick_failure_invisible_witness :
    (0, regTask) ∈ regState.liveIntervals
    ∧ ((fireTick regState (0, regTask).2 .failure).state = regState
      ∧ fireTick regState (0, regTask).2 .failure = fireTick regState (0, regTask).2 .success
      ∧ (0, regTask) ∈ (fireTick regState (0, regTask).2 .failure).state.liveIntervals
      ∧ tickableFor (fireTick regState (0, regTask).2 .failure).state (0, regTask).2.ackId
          = tickableFor regState (0, regTask).2.ackId) :=
  ⟨by decide, c9_tick_failure_invisible regState (0, regTask) (by decide)⟩

/-- C9 counterexample: the claim as stated fails on the code.  A concrete
failing renewal tick produces exactly the same run — the same log-sink
invocations and the same events — as a successful one, and its full event
list contains only the fixed loop and modify log lines and the wire call
itself: no failure report ever reaches the injected observer, because the
interval callback (lines 115-118) discards the promise of
`modifyAckDeadline` with no catch handler. -/
theorem c9_counterexample_failure_unreported :
    fireTick regState regTask .failure = fireTick regState regTask .success
    ∧ (fireTick regState regTask .failure).events =
        [.log (.jobLoop "jobs" "A1"), .log (.modifyLog "jobs" ["A1"] 15000),
         .callModifyAckDeadline "jobs" ["A1"] 15000] :=
  ⟨rfl, rfl⟩

/-- C10: `publish` overwrites the `data` field of each caller-supplied
message object in place with the base64 encoding of its previous value
before the request is sent (lines 151-154 mutate the original objects, so
after the call the caller array holds encoded payloads), leaves every
other field untouched, keeps the batch length, and posts exactly the
mutated objects. -/
theorem c10_publish_encodes_caller_messages (topic : String) (messages : List PubMessage)
    (i : Nat) :
    (publish topic messages).callerMessages.length = messages.length
    ∧ (publish topic messages).callerMessages[i]? =
        (messages[i]?).map (fun m => { m with data := encodeData m.data })
    ∧ ((publish topic messages).callerMessages[i]?).map PubMessage.attributes =
        (messages[i]?).map PubMessage.attributes
    ∧ (publish topic messages).events =
        [Event.callPublish topic (publish topic messages).callerMessages] := by
  refine ⟨by simp [publish], by simp [publish], ?_, rfl⟩
  simp only [publish, List.getElem?_map]
  cases messages[i]? <;> rfl

end LongRunningPubsub
